import Mathlib

/-!
# Precise ULP timing on the ATtiny416: the tick handler and the phase scheduler

Shallow embedding of `main.c`: the RTC overflow handler `ISR(RTC_CNT_vect)` and the
main loop that alternates between a measurement phase (main clock on XOSC32K) and
an idle phase (main clock on OSCULP32K, CPU asleep).

Integer widths are those of avr-gcc for the ATtiny416: `int` and `unsigned int`
are 16 bits wide, `uint32_t` is `unsigned long` (32 bits).  Unsigned values are
natural numbers reduced explicitly modulo `2^16` or `2^32`; `int` values are
integers, and the value stored by an `int` increment is reduced to the
two's-complement range of 16 bits (what the AVR `adiw`/`sts` sequence stores).
-/

namespace PreciseULPTiming

/-! ## Constants of `main.c` -/

/-- Crystal frequency, `#define F_XOSC32K 32768UL`. -/
def F_XOSC32K : Nat := 32768

/-- Desired duration of an RTC tick in seconds, `#define DESIRED_RTC_TICK_S 3`. -/
def DESIRED_RTC_TICK_S : Nat := 3

/-- Number of ticks between measurements, `#define N_TICKS_BETWEEN_MEAS 300`. -/
def N_TICKS_BETWEEN_MEAS : Int := 300

/-- Number of ticks used for a measurement, `#define N_TICKS_FOR_MEAS 2`. -/
def N_TICKS_FOR_MEAS : Int := 2

/-- Largest value of a 16 bit `int`. -/
def INT_MAX : Int := 32767

/-- Smallest value of a 16 bit `int`. -/
def INT_MIN : Int := -32768

/-! ## Machine arithmetic -/

/-- Reduction of a natural number to a 16 bit unsigned value. -/
def u16 (x : Nat) : Nat := x % 65536

/-- Reduction of a natural number to a 32 bit unsigned value. -/
def u32 (x : Nat) : Nat := x % 4294967296

/-- Reduction of an integer to the two's-complement range of a 16 bit `int`. -/
def wrapInt (x : Int) : Int := (x + 32768) % 65536 - 32768

/-! ## The shared variables and the LED pin -/

/-- The `volatile` globals of `main.c` (lines 21-27) and the output level of
`PA4`, the only port bit the handler drives. -/
structure State where
  /-- Accumulated time in units of 1/32768 s, `uint32_t`. -/
  n_31us : Nat
  /-- Whole seconds, `uint32_t`. -/
  secs : Nat
  /-- Whole minutes, `uint32_t`. -/
  mins : Nat
  /-- Request flag written by the main loop, `int`. -/
  now_in_meas_mode : Int
  /-- Ticks seen while the flag is set, `int`. -/
  cnt_in_meas_mode : Int
  /-- Ticks seen while the flag is clear, `int`. -/
  cnt_not_in_meas_mode : Int
  /-- Measured duration of a tick in XOSC32K cycles, `uint32_t`. -/
  meas_value : Nat
  /-- Output level of `BLED1PORT` bit 4. -/
  bled1 : Bool
deriving DecidableEq, Repr

/-- The initial values of the globals (lines 21-27); `led` is the level the
start-up code left on the pin. -/
def initState (led : Bool) : State :=
  { n_31us := 0
    secs := 0
    mins := 0
    now_in_meas_mode := 0
    cnt_in_meas_mode := 0
    cnt_not_in_meas_mode := 0
    meas_value := u32 (F_XOSC32K * DESIRED_RTC_TICK_S)
    bled1 := led }

/-- Every variable holds a value of its C type. -/
def State.WF (s : State) : Prop :=
  s.n_31us < 4294967296 ∧ s.secs < 4294967296 ∧ s.mins < 4294967296 ∧
  s.meas_value < 4294967296 ∧
  (INT_MIN ≤ s.now_in_meas_mode ∧ s.now_in_meas_mode ≤ INT_MAX) ∧
  (INT_MIN ≤ s.cnt_in_meas_mode ∧ s.cnt_in_meas_mode ≤ INT_MAX) ∧
  (INT_MIN ≤ s.cnt_not_in_meas_mode ∧ s.cnt_not_in_meas_mode ≤ INT_MAX)

instance (s : State) : Decidable s.WF := by
  unfold State.WF; infer_instance

/-! ## The handler `ISR(RTC_CNT_vect)`, statement by statement -/

/-- The write `BLED1PORT.OUTTGL = BLED1_bm` (lines 34 and 52). -/
def outtgl (s : State) : State := { s with bled1 := !s.bled1 }

/-- Lines 35-41: the progress counters.  An increment of an `int` at `INT_MAX`
is undefined in C; the model stores the two's-complement wrap, and the
statements that need the exact sum assume the counter below `INT_MAX`. -/
def updateCounters (s : State) : State :=
  if s.now_in_meas_mode = 0 then
    { s with cnt_in_meas_mode := 0
             cnt_not_in_meas_mode := wrapInt (s.cnt_not_in_meas_mode + 1) }
  else
    { s with cnt_in_meas_mode := wrapInt (s.cnt_in_meas_mode + 1)
             cnt_not_in_meas_mode := 0 }

/-- The condition of line 43, read after the counters were updated. -/
def takesMeasurement (s : State) : Bool :=
  decide ((updateCounters s).cnt_in_meas_mode = N_TICKS_FOR_MEAS)

/-- The value the two assignments of lines 44-47 leave in `meas_value` when
`TCB0.CCMP` reads `ccmp`.  `TCB0.CCMP` is a 16 bit unsigned register and `1`
is an `int`, so `(TCB0.CCMP) + 1` is an `unsigned int` sum of 16 bits; its
value is converted to `uint32_t` and stored, and `65536` is then added in 32
bits. -/
def measuredValue (ccmp : Nat) : Nat :=
  u32 (u32 (u16 (ccmp + 1)) + 65536)

/-- Lines 43-48: the measurement step. -/
def measure (s : State) (ccmp : Nat) : State :=
  if s.cnt_in_meas_mode = N_TICKS_FOR_MEAS then
    { s with meas_value := measuredValue ccmp }
  else s

/-- Lines 49-51: the accumulator and the derived seconds and minutes. -/
def accumulate (s : State) : State :=
  let n := u32 (s.n_31us + s.meas_value)
  let sec := n >>> 15
  { s with n_31us := n, secs := sec, mins := sec / 60 }

/-- Lines 54-57: the minute-parity indicator. -/
def showParity (s : State) : State :=
  if s.mins &&& 1 ≠ 0 then { s with bled1 := false } else { s with bled1 := true }

/-- The handler `ISR(RTC_CNT_vect)` (lines 29-58); `ccmp` is the value
`TCB0.CCMP` holds during the invocation.  The write to `RTC.INTFLAGS` touches
no modelled variable. -/
def ISR_RTC_CNT_vect (s : State) (ccmp : Nat) : State :=
  showParity (outtgl (accumulate (measure (updateCounters (outtgl s)) ccmp)))

/-! ## Tick traces with an arbitrary request flag -/

/-- One tick of a trace: the value the request flag has when the handler
runs and the value latched in `TCB0.CCMP`. -/
structure Tick where
  /-- Value of `now_in_meas_mode` seen by the handler. -/
  flag : Int
  /-- Value of `TCB0.CCMP` read by the handler. -/
  ccmp : Nat
deriving DecidableEq, Repr

/-- The flag is set by the foreground, then the handler runs. -/
def tick (s : State) (e : Tick) : State :=
  ISR_RTC_CNT_vect { s with now_in_meas_mode := e.flag } e.ccmp

/-- A finite sequence of handler invocations. -/
def runTicks (s : State) (es : List Tick) : State := es.foldl tick s

/-- For each invocation of a trace, whether it takes the measurement branch. -/
def measLog : State → List Tick → List Bool
  | _, [] => []
  | s, e :: es =>
    takesMeasurement { s with now_in_meas_mode := e.flag } :: measLog (tick s e) es

/-- A trace of `k` ticks in which the request flag alternates 0, 1, 0, 1, ...
(no counter ever exceeds 1) and every latch reads the nominal 32767. -/
def alternating (k : Nat) : List Tick :=
  (List.range k).map (fun i => { flag := ((i % 2 : Nat) : Int), ccmp := 32767 })

/-! ## The main loop -/

/-- Main clock selection written to `CLKCTRL.MCLKCTRLA`. -/
inductive ClkSel where
  | XOSC32K
  | OSCULP32K
deriving DecidableEq, Repr

/-- Program points of the `while (1)` body of `main` (lines 83-103). -/
inductive Pc where
  /-- Line 87, before `switch_main_clk_to_xosc32k()`. -/
  | l87
  /-- Line 91, before `now_in_meas_mode = 1`. -/
  | l91
  /-- Line 94, the test of the wait for the measurement. -/
  | l94
  /-- Line 97, before `now_in_meas_mode = 0`. -/
  | l97
  /-- Line 98, before `switch_main_clk_to_ulp32k()`. -/
  | l98
  /-- Line 99, the test of the sleep loop. -/
  | l99
deriving DecidableEq, Repr

/-- The shared variables together with the foreground context. -/
structure Sys where
  /-- Shared variables and LED. -/
  st : State
  /-- Where the main loop stands. -/
  pc : Pc
  /-- Selected main clock. -/
  clk : ClkSel
deriving DecidableEq, Repr

/-- One step of the main loop; `none` when the loop waits for the next tick
(spinning at line 94 or asleep in `sleep_cpu()` at line 101).  The two clock
switches are taken to return. -/
def mainStep (y : Sys) : Option Sys :=
  match y.pc with
  | Pc.l87 => some { y with clk := ClkSel.XOSC32K, pc := Pc.l91 }
  | Pc.l91 => some { y with st := { y.st with now_in_meas_mode := 1 }, pc := Pc.l94 }
  | Pc.l94 =>
    if y.st.cnt_in_meas_mode < N_TICKS_FOR_MEAS then none
    else some { y with pc := Pc.l97 }
  | Pc.l97 => some { y with st := { y.st with now_in_meas_mode := 0 }, pc := Pc.l98 }
  | Pc.l98 => some { y with clk := ClkSel.OSCULP32K, pc := Pc.l99 }
  | Pc.l99 =>
    if y.st.cnt_not_in_meas_mode < N_TICKS_BETWEEN_MEAS then none
    else some { y with pc := Pc.l87 }

/-- The main loop runs until it waits, for at most `fuel` steps. -/
def mainRun : Nat → Sys → Sys
  | 0, y => y
  | fuel + 1, y =>
    match mainStep y with
    | none => y
    | some y1 => mainRun fuel y1

/-- The handler interrupts the main loop. -/
def sysTick (y : Sys) (ccmp : Nat) : Sys :=
  { y with st := ISR_RTC_CNT_vect y.st ccmp }

/-- The system at reset: `main` is about to enter its loop. -/
def sysReset (led : Bool) (clk : ClkSel) : Sys :=
  { st := initState led, pc := Pc.l87, clk := clk }

/-- The system after `n` ticks, the main loop having run to its next wait
after reset and after every tick; `ccmp i` is the latch value at tick `i + 1`.
Six steps go once round the loop body. -/
def sysAfter (led : Bool) (clk : ClkSel) (ccmp : Nat → Nat) : Nat → Sys
  | 0 => mainRun 6 (sysReset led clk)
  | n + 1 => mainRun 6 (sysTick (sysAfter led clk ccmp n) (ccmp n))

/-! ## The clock switches, with the status register read by read -/

/-- The timekeeping variables together with what the clock switches touch. -/
structure Mcu where
  /-- Shared variables and LED. -/
  st : State
  /-- Values written to `CLKCTRL.MCLKCTRLA` so far, oldest first. -/
  mclkctrla : List ClkSel
  /-- Number of reads of `CLKCTRL.MCLKSTATUS` made so far. -/
  nreads : Nat
deriving DecidableEq, Repr

/-- Modelled from the spec: `ccp_write_io`, a library routine that is not part
of the sources; called on `CLKCTRL.MCLKCTRLA` it selects the named oscillator
as the main clock, one write to the register. -/
def ccp_write_io (m : Mcu) (sel : ClkSel) : Mcu :=
  { m with mclkctrla := m.mclkctrla ++ [sel] }

/-- The loop condition of lines 64 and 73 on a value read from
`CLKCTRL.MCLKSTATUS`; `bp` is the bit position `CLKCTRL_SOSC_bp` of the device
header. -/
def soscChanging (bp : Nat) (status : Nat) : Bool :=
  decide (status &&& (1 <<< bp) ≠ 0)

/-- The busy wait of lines 64-66 and 73-75: `status i` is the value the `i`-th
read of `CLKCTRL.MCLKSTATUS` returns; `none` when `fuel` reads did not end
the loop. -/
def waitSosc (bp : Nat) (status : Nat → Nat) : Nat → Mcu → Option Mcu
  | 0, _ => none
  | fuel + 1, m =>
    if soscChanging bp (status m.nreads) = true then
      waitSosc bp status fuel { m with nreads := m.nreads + 1 }
    else
      some { m with nreads := m.nreads + 1 }

/-- The function `switch_main_clk_to_ulp32k` (lines 60-67). -/
def switch_main_clk_to_ulp32k (bp : Nat) (status : Nat → Nat) (fuel : Nat) (m : Mcu) :
    Option Mcu :=
  waitSosc bp status fuel (ccp_write_io m ClkSel.OSCULP32K)

/-- The function `switch_main_clk_to_xosc32k` (lines 69-76). -/
def switch_main_clk_to_xosc32k (bp : Nat) (status : Nat → Nat) (fuel : Nat) (m : Mcu) :
    Option Mcu :=
  waitSosc bp status fuel (ccp_write_io m ClkSel.XOSC32K)

/-! ## Reachable states of the handler and the main loop -/

/-- The states of the combined system: from reset the main loop steps while
it can, and a tick arrives only while the main loop waits. -/
inductive Reach (led : Bool) (clk : ClkSel) : Sys → Prop where
  | reset : Reach led clk (sysReset led clk)
  | step (y y1 : Sys) : Reach led clk y → mainStep y = some y1 → Reach led clk y1
  | tick (y : Sys) (ccmp : Nat) : Reach led clk y → mainStep y = none →
      Reach led clk (sysTick y ccmp)

/-- What holds of the counters and the flag at each program point. -/
def CounterInv (y : Sys) : Prop :=
  match y.pc with
  | Pc.l87 => y.st.cnt_in_meas_mode = 0 ∧
      0 ≤ y.st.cnt_not_in_meas_mode ∧ y.st.cnt_not_in_meas_mode ≤ 300
  | Pc.l91 => y.st.cnt_in_meas_mode = 0 ∧
      0 ≤ y.st.cnt_not_in_meas_mode ∧ y.st.cnt_not_in_meas_mode ≤ 300
  | Pc.l94 => y.st.now_in_meas_mode = 1 ∧
      ((y.st.cnt_in_meas_mode = 0 ∧
          0 ≤ y.st.cnt_not_in_meas_mode ∧ y.st.cnt_not_in_meas_mode ≤ 300) ∨
       ((y.st.cnt_in_meas_mode = 1 ∨ y.st.cnt_in_meas_mode = 2) ∧
          y.st.cnt_not_in_meas_mode = 0))
  | Pc.l97 => y.st.cnt_in_meas_mode = 2 ∧ y.st.cnt_not_in_meas_mode = 0
  | Pc.l98 => y.st.now_in_meas_mode = 0 ∧
      y.st.cnt_in_meas_mode = 2 ∧ y.st.cnt_not_in_meas_mode = 0
  | Pc.l99 => y.st.now_in_meas_mode = 0 ∧
      ((y.st.cnt_in_meas_mode = 2 ∧ y.st.cnt_not_in_meas_mode = 0) ∨
       (y.st.cnt_in_meas_mode = 0 ∧
          1 ≤ y.st.cnt_not_in_meas_mode ∧ y.st.cnt_not_in_meas_mode ≤ 300))

/-- A machine at rest: initial variables, no register access yet. -/
def mcuReset : Mcu := { st := initState false, mclkctrla := [], nreads := 0 }

/-- A status stream whose bit 0 is set on the first two reads only. -/
def twoBusyReads (i : Nat) : Nat := if i < 2 then 1 else 0

/-! ## States and predicates used in the statements -/

/-- The system right after the first tick: the main loop has set the flag and
spins at line 94, the handler has counted one tick of the phase. -/
def firstTickSys : Sys :=
  sysTick (mainRun 6 (sysReset false ClkSel.OSCULP32K)) 7


/-- A state about to take the measurement branch: the flag is set and one
tick of the phase has been counted. -/
def secondTickState : State :=
  { initState false with now_in_meas_mode := 1, cnt_in_meas_mode := 1 }

/-- An accumulator value reached after 43690 nominal ticks of 98304 cycles. -/
def wrapState : State :=
  { initState false with n_31us := 43690 * 98304 }

/-- The bounds every reachable state satisfies. -/
def Bounded (s : State) : Prop :=
  s.n_31us < 4294967296 ∧ 65536 ≤ s.meas_value ∧ s.meas_value ≤ 131072

/-- Where the system stands after `m` ticks, by the position `m % 302` in the
cycle of 2 calibrating and 300 idle ticks. -/
def Cadence (m : Nat) (y : Sys) : Prop :=
  if m % 302 < 2 then
    y.pc = Pc.l94 ∧ y.st.now_in_meas_mode = 1 ∧ y.st.cnt_in_meas_mode = ((m % 302 : Nat) : Int) ∧
    y.st.cnt_not_in_meas_mode = (if m % 302 = 0 ∧ m ≠ 0 then 300 else 0)
  else
    y.pc = Pc.l99 ∧ y.st.now_in_meas_mode = 0 ∧
    y.st.cnt_in_meas_mode = (if m % 302 = 2 then 2 else 0) ∧
    y.st.cnt_not_in_meas_mode = ((m % 302 - 2 : Nat) : Int)

/-! ## Sanity checks of the embedding -/

example : (initState false).meas_value = 98304 := by decide
example : measuredValue 0 = 65537 := by decide
example : measuredValue 32768 = 98305 := by decide
example : measuredValue 65535 = 65536 := by decide
example : (sysAfter false ClkSel.OSCULP32K (fun _ => 32767) 0).st.now_in_meas_mode = 1 := by decide
example : (sysAfter false ClkSel.OSCULP32K (fun _ => 32767) 2).st.now_in_meas_mode = 0 := by decide
example : (sysAfter false ClkSel.OSCULP32K (fun _ => 32767) 2).pc = Pc.l99 := by decide

/-! ## What one handler invocation stores -/

theorem u32_lt (x : Nat) : u32 x < 4294967296 := by
  unfold u32; omega

theorem wrapInt_of_range (x : Int) (h1 : -32768 ≤ x) (h2 : x ≤ 32767) : wrapInt x = x := by
  unfold wrapInt; omega

theorem measuredValue_lt (c : Nat) (h : c < 65535) : measuredValue c = c + 1 + 65536 := by
  unfold measuredValue u32 u16; omega

theorem measuredValue_max : measuredValue 65535 = 65536 := by decide

theorem measuredValue_bounds (c : Nat) : 65536 ≤ measuredValue c ∧ measuredValue c ≤ 131071 := by
  unfold measuredValue u32 u16; omega

theorem isr_now_in_meas_mode (s : State) (c : Nat) :
    (ISR_RTC_CNT_vect s c).now_in_meas_mode = s.now_in_meas_mode := by
  simp only [ISR_RTC_CNT_vect, showParity, outtgl, accumulate, measure, updateCounters]
  split_ifs <;> rfl

theorem isr_cnt_in_meas_mode (s : State) (c : Nat) :
    (ISR_RTC_CNT_vect s c).cnt_in_meas_mode = (updateCounters s).cnt_in_meas_mode := by
  simp only [ISR_RTC_CNT_vect, showParity, outtgl, accumulate, measure, updateCounters]
  split_ifs <;> rfl

theorem isr_cnt_not_in_meas_mode (s : State) (c : Nat) :
    (ISR_RTC_CNT_vect s c).cnt_not_in_meas_mode = (updateCounters s).cnt_not_in_meas_mode := by
  simp only [ISR_RTC_CNT_vect, showParity, outtgl, accumulate, measure, updateCounters]
  split_ifs <;> rfl

theorem isr_meas_value (s : State) (c : Nat) :
    (ISR_RTC_CNT_vect s c).meas_value =
      if takesMeasurement s = true then measuredValue c else s.meas_value := by
  simp only [ISR_RTC_CNT_vect, showParity, outtgl, accumulate, measure, updateCounters,
    takesMeasurement, decide_eq_true_eq]
  split_ifs <;> rfl

theorem isr_n_31us (s : State) (c : Nat) :
    (ISR_RTC_CNT_vect s c).n_31us = u32 (s.n_31us + (ISR_RTC_CNT_vect s c).meas_value) := by
  simp only [ISR_RTC_CNT_vect, showParity, outtgl, accumulate, measure, updateCounters]
  split_ifs <;> rfl

theorem isr_secs (s : State) (c : Nat) :
    (ISR_RTC_CNT_vect s c).secs = (ISR_RTC_CNT_vect s c).n_31us >>> 15 := by
  simp only [ISR_RTC_CNT_vect, showParity, outtgl, accumulate, measure, updateCounters]
  split_ifs <;> rfl

theorem isr_mins (s : State) (c : Nat) :
    (ISR_RTC_CNT_vect s c).mins = (ISR_RTC_CNT_vect s c).secs / 60 := by
  simp only [ISR_RTC_CNT_vect, showParity, outtgl, accumulate, measure, updateCounters]
  split_ifs <;> rfl

theorem takesMeasurement_iff (s : State) :
    takesMeasurement s = true ↔
      s.now_in_meas_mode ≠ 0 ∧ wrapInt (s.cnt_in_meas_mode + 1) = 2 := by
  simp only [takesMeasurement, updateCounters, N_TICKS_FOR_MEAS, decide_eq_true_eq]
  split_ifs with h <;> simp [h]

theorem takesMeasurement_of_clear (s : State) (h : s.now_in_meas_mode = 0) :
    takesMeasurement s = false := by
  simp [takesMeasurement, updateCounters, N_TICKS_FOR_MEAS, h]

/-! ## Measurement arithmetic -/

/-- C1: with the 16 bit `unsigned int` sum of line 44, an invocation that takes
the measurement branch with a latch value `L <= 65535` leaves `meas_value`
equal to `L + 1 + 65536` for every `L` below `65535`, whatever `meas_value`
was before, but equal to `65536` (not `131072`) for `L = 65535`. -/
theorem isr_measurement_value (s : State) (L : Nat) (hL : L ≤ 65535)
    (hm : takesMeasurement s = true) :
    (ISR_RTC_CNT_vect s L).meas_value = if L = 65535 then 65536 else L + 1 + 65536 := by
  rw [isr_meas_value, if_pos hm]
  split_ifs with h
  · rw [h]; exact measuredValue_max
  · exact measuredValue_lt L (by omega)

/-- Evaluation of C1 at the largest latch value: the handler stores `65536`
where the specification asks for `131072`. -/
theorem isr_measurement_value_witness :
    takesMeasurement secondTickState = true ∧
    (ISR_RTC_CNT_vect secondTickState 65535).meas_value = 65536 ∧
    (ISR_RTC_CNT_vect secondTickState 65535).meas_value ≠ 65535 + 1 + 65536 := by
  have h := isr_measurement_value secondTickState 65535 (by decide) (by decide)
  refine ⟨by decide, ?_, ?_⟩
  · simpa using h
  · rw [h]; decide

/-! ## The accumulator -/

/-- C3, as stated, fails at the 32 bit wrap: from `n_31us = 4294901760` a
tick of 98304 cycles leaves `n_31us = 32768`, not `4294901760 + 98304`. -/
theorem isr_increment_wraps :
    (ISR_RTC_CNT_vect wrapState 0).meas_value = 98304 ∧
    (ISR_RTC_CNT_vect wrapState 0).n_31us = 32768 ∧
    (ISR_RTC_CNT_vect wrapState 0).n_31us ≠
      wrapState.n_31us + (ISR_RTC_CNT_vect wrapState 0).meas_value := by
  decide

/-- C3 (amended): one invocation adds to `n_31us`, modulo `2^32`, the value
`meas_value` holds after the measurement step of that invocation (the freshly
measured value on a measuring tick, the unchanged value otherwise); the
increase is exactly that value whenever the 32 bit sum does not wrap. -/
theorem isr_increment (s : State) (L : Nat) :
    (ISR_RTC_CNT_vect s L).meas_value =
      (if takesMeasurement s = true then measuredValue L else s.meas_value) ∧
    (ISR_RTC_CNT_vect s L).n_31us =
      (s.n_31us + (ISR_RTC_CNT_vect s L).meas_value) % 4294967296 ∧
    (s.n_31us + (ISR_RTC_CNT_vect s L).meas_value < 4294967296 →
      (ISR_RTC_CNT_vect s L).n_31us = s.n_31us + (ISR_RTC_CNT_vect s L).meas_value) := by
  refine ⟨isr_meas_value s L, ?_, ?_⟩
  · rw [isr_n_31us]; rfl
  · intro h
    rw [isr_n_31us]
    exact Nat.mod_eq_of_lt h

/-- The scenario of C3: a calibration with latch 32768 stores 98305 and adds
98305 to the accumulator, and so does the next, non-measuring tick. -/
theorem isr_increment_witness :
    secondTickState.meas_value = 98304 ∧
    (ISR_RTC_CNT_vect secondTickState 32768).meas_value = 98305 ∧
    (ISR_RTC_CNT_vect secondTickState 32768).n_31us = secondTickState.n_31us + 98305 ∧
    takesMeasurement
      { ISR_RTC_CNT_vect secondTickState 32768 with now_in_meas_mode := 0 } = false ∧
    (tick (ISR_RTC_CNT_vect secondTickState 32768) ⟨0, 32768⟩).n_31us =
      (ISR_RTC_CNT_vect secondTickState 32768).n_31us + 98305 := by
  have h1 := isr_increment secondTickState 32768
  have hm : (ISR_RTC_CNT_vect secondTickState 32768).meas_value = 98305 := by
    rw [h1.1]; decide
  have h2 := isr_increment
    { ISR_RTC_CNT_vect secondTickState 32768 with now_in_meas_mode := 0 } 32768
  have hc : takesMeasurement
      { ISR_RTC_CNT_vect secondTickState 32768 with now_in_meas_mode := 0 } = false :=
    takesMeasurement_of_clear _ rfl
  refine ⟨by decide, hm, ?_, hc, ?_⟩
  · rw [h1.2.1, hm]; decide
  · have hm2 : (tick (ISR_RTC_CNT_vect secondTickState 32768) ⟨0, 32768⟩).meas_value
        = 98305 := by
      unfold tick
      rw [h2.1, hc]; simpa using hm
    have hn : (ISR_RTC_CNT_vect secondTickState 32768).n_31us = 98305 := by
      rw [h1.2.1, hm]; decide
    have h3 := h2.2.1
    unfold tick at hm2 ⊢
    rw [h3, hm2]
    simp only [hn]

/-! ## Derived seconds and minutes -/

/-- C6: in the initial state and after every handler invocation,
`secs = n_31us >> 15 = n_31us / 32768` and `mins = secs / 60`, for the
accumulator value stored by that invocation. -/
theorem secs_mins_derivation (led : Bool) (s : State) (L : Nat) :
    ((initState led).secs = (initState led).n_31us >>> 15 ∧
      (initState led).mins = (initState led).secs / 60) ∧
    ((ISR_RTC_CNT_vect s L).secs = (ISR_RTC_CNT_vect s L).n_31us >>> 15 ∧
      (ISR_RTC_CNT_vect s L).secs = (ISR_RTC_CNT_vect s L).n_31us / 32768 ∧
      (ISR_RTC_CNT_vect s L).mins = (ISR_RTC_CNT_vect s L).secs / 60) := by
  refine ⟨⟨by simp [initState], by simp [initState]⟩, isr_secs s L, ?_, isr_mins s L⟩
  rw [isr_secs, Nat.shiftRight_eq_div_pow]

/-! ## Progress counters -/

theorem updateCounters_clear (s : State) (h : s.now_in_meas_mode = 0) :
    (updateCounters s).cnt_in_meas_mode = 0 ∧
    (updateCounters s).cnt_not_in_meas_mode = wrapInt (s.cnt_not_in_meas_mode + 1) := by
  simp [updateCounters, h]

theorem updateCounters_set (s : State) (h : s.now_in_meas_mode ≠ 0) :
    (updateCounters s).cnt_in_meas_mode = wrapInt (s.cnt_in_meas_mode + 1) ∧
    (updateCounters s).cnt_not_in_meas_mode = 0 := by
  simp [updateCounters, h]

/-- C7: for every well-typed state with both counters below `INT_MAX`, one
handler invocation with the flag clear resets `cnt_in_meas_mode` and
increments `cnt_not_in_meas_mode`; with any non-zero flag it increments
`cnt_in_meas_mode` and resets `cnt_not_in_meas_mode`. -/
theorem isr_progress_counters (s : State) (L : Nat) (hwf : s.WF)
    (hin : s.cnt_in_meas_mode < INT_MAX) (hnot : s.cnt_not_in_meas_mode < INT_MAX) :
    (s.now_in_meas_mode = 0 →
      (ISR_RTC_CNT_vect s L).cnt_in_meas_mode = 0 ∧
      (ISR_RTC_CNT_vect s L).cnt_not_in_meas_mode = s.cnt_not_in_meas_mode + 1) ∧
    (s.now_in_meas_mode ≠ 0 →
      (ISR_RTC_CNT_vect s L).cnt_in_meas_mode = s.cnt_in_meas_mode + 1 ∧
      (ISR_RTC_CNT_vect s L).cnt_not_in_meas_mode = 0) := by
  obtain ⟨-, -, -, -, -, ⟨hi1, -⟩, ⟨hn1, -⟩⟩ := hwf
  simp only [INT_MIN, INT_MAX] at hi1 hn1 hin hnot
  rw [isr_cnt_in_meas_mode, isr_cnt_not_in_meas_mode]
  constructor
  · intro h
    obtain ⟨h1, h2⟩ := updateCounters_clear s h
    rw [h1, h2, wrapInt_of_range _ (by omega) (by omega)]
    exact ⟨rfl, rfl⟩
  · intro h
    obtain ⟨h1, h2⟩ := updateCounters_set s h
    rw [h1, h2, wrapInt_of_range _ (by omega) (by omega)]
    exact ⟨rfl, rfl⟩

/-- C7 at two concrete states: the initial state (flag clear) and the state
before the second tick of a calibration phase (flag set). -/
theorem isr_progress_counters_witness :
    ((ISR_RTC_CNT_vect (initState false) 0).cnt_in_meas_mode = 0 ∧
      (ISR_RTC_CNT_vect (initState false) 0).cnt_not_in_meas_mode = 1) ∧
    ((ISR_RTC_CNT_vect secondTickState 0).cnt_in_meas_mode = 2 ∧
      (ISR_RTC_CNT_vect secondTickState 0).cnt_not_in_meas_mode = 0) :=
  ⟨(isr_progress_counters (initState false) 0 (by decide) (by decide) (by decide)).1 rfl,
   (isr_progress_counters secondTickState 0 (by decide) (by decide) (by decide)).2
     (by decide)⟩

/-! ## Frame of the measurement -/

/-- C8: an invocation that does not take the measurement branch (the updated
`cnt_in_meas_mode` differs from `N_TICKS_FOR_MEAS`) leaves `meas_value` as it
was; every invocation that sees the request flag clear is of that kind. -/
theorem isr_meas_value_frame (s : State) (L : Nat) :
    ((updateCounters s).cnt_in_meas_mode ≠ N_TICKS_FOR_MEAS →
      (ISR_RTC_CNT_vect s L).meas_value = s.meas_value) ∧
    (s.now_in_meas_mode = 0 →
      (updateCounters s).cnt_in_meas_mode ≠ N_TICKS_FOR_MEAS) := by
  constructor
  · intro h
    rw [isr_meas_value, if_neg]
    simpa [takesMeasurement] using h
  · intro h
    rw [(updateCounters_clear s h).1]
    decide

/-- C8 at the initial state, whose flag is clear: the nominal 98304 stays. -/
theorem isr_meas_value_frame_witness :
    (ISR_RTC_CNT_vect (initState false) 12345).meas_value = 98304 :=
  ((isr_meas_value_frame (initState false) 12345).1
    ((isr_meas_value_frame (initState false) 12345).2 rfl)).trans (by decide)

/-! ## Single-writer ownership -/

/-- C10: the handler leaves the request flag unchanged, and a step of the
main loop changes no shared variable other than the request flag. -/
theorem single_writer (s : State) (L : Nat) (y y1 : Sys) (h : mainStep y = some y1) :
    (ISR_RTC_CNT_vect s L).now_in_meas_mode = s.now_in_meas_mode ∧
    y1.st = { y.st with now_in_meas_mode := y1.st.now_in_meas_mode } := by
  refine ⟨isr_now_in_meas_mode s L, ?_⟩
  unfold mainStep at h
  split at h
  · cases h; rfl
  · cases h; rfl
  · split_ifs at h; cases h; rfl
  · cases h; rfl
  · cases h; rfl
  · split_ifs at h; cases h; rfl

/-- C10 at the step of line 91 after reset: the flag becomes 1, nothing
else among the shared variables changes. -/
theorem single_writer_witness :
    (ISR_RTC_CNT_vect secondTickState 7).now_in_meas_mode = 1 ∧
    ({ sysReset false ClkSel.OSCULP32K with
        st := { initState false with now_in_meas_mode := 1 }, pc := Pc.l94 } : Sys).st =
      { initState false with now_in_meas_mode := 1 } :=
  single_writer secondTickState 7
    { sysReset false ClkSel.OSCULP32K with pc := Pc.l91 }
    { sysReset false ClkSel.OSCULP32K with
        st := { initState false with now_in_meas_mode := 1 }, pc := Pc.l94 } rfl

/-! ## Invariants of tick traces -/

theorem runTicks_nil (s : State) : runTicks s [] = s := rfl

theorem runTicks_cons (s : State) (e : Tick) (es : List Tick) :
    runTicks s (e :: es) = runTicks (tick s e) es := rfl

theorem runTicks_append (s : State) (es fs : List Tick) :
    runTicks s (es ++ fs) = runTicks (runTicks s es) fs := by
  simp [runTicks, List.foldl_append]

theorem tick_meas_value (s : State) (e : Tick) :
    (tick s e).meas_value = measuredValue e.ccmp ∨ (tick s e).meas_value = s.meas_value := by
  unfold tick
  rw [isr_meas_value]
  split_ifs
  · exact Or.inl rfl
  · exact Or.inr rfl

theorem tick_n_31us (s : State) (e : Tick) :
    (tick s e).n_31us = u32 (s.n_31us + (tick s e).meas_value) := by
  unfold tick
  rw [isr_n_31us]

theorem bounded_init (led : Bool) : Bounded (initState led) := by
  simp [Bounded, initState, u32, F_XOSC32K, DESIRED_RTC_TICK_S]

theorem bounded_tick (s : State) (e : Tick) (h : Bounded s) : Bounded (tick s e) := by
  obtain ⟨-, h2, h3⟩ := h
  refine ⟨?_, ?_, ?_⟩
  · rw [tick_n_31us]; exact u32_lt _
  · rcases tick_meas_value s e with hm | hm <;> rw [hm]
    · exact (measuredValue_bounds _).1
    · exact h2
  · rcases tick_meas_value s e with hm | hm <;> rw [hm]
    · have := (measuredValue_bounds e.ccmp).2; omega
    · exact h3

theorem bounded_runTicks (es : List Tick) (s : State) (h : Bounded s) :
    Bounded (runTicks s es) := by
  induction es generalizing s with
  | nil => exact h
  | cons e es ih => exact ih (tick s e) (bounded_tick s e h)

/-- C9: in every state reached from the initial state by handler invocations
with arbitrary latch and flag values, `meas_value` is positive and within
32768 of the nominal 98304: `65536 <= meas_value <= 131072`. -/
theorem meas_value_invariant (led : Bool) (es : List Tick) :
    (initState led).meas_value = 32768 * 3 ∧
    0 < (runTicks (initState led) es).meas_value ∧
    65536 ≤ (runTicks (initState led) es).meas_value ∧
    (runTicks (initState led) es).meas_value ≤ 131072 := by
  obtain ⟨-, h2, h3⟩ := bounded_runTicks es _ (bounded_init led)
  exact ⟨by simp [initState, u32, F_XOSC32K, DESIRED_RTC_TICK_S], by omega, h2, h3⟩

/-! ## Monotonicity of the accumulator -/

theorem tick_nominal (s : State) (e : Tick) (hc : e.ccmp = 32767)
    (hm : s.meas_value = 98304) : (tick s e).meas_value = 98304 := by
  rcases tick_meas_value s e with h | h <;> rw [h]
  · rw [hc]; decide
  · exact hm

theorem runTicks_nominal (es : List Tick) (s : State) (hc : ∀ e ∈ es, e.ccmp = 32767)
    (hm : s.meas_value = 98304) (hn : s.n_31us < 4294967296) :
    (runTicks s es).meas_value = 98304 ∧
    (runTicks s es).n_31us = u32 (s.n_31us + es.length * 98304) := by
  induction es generalizing s with
  | nil =>
    refine ⟨hm, ?_⟩
    simp only [runTicks_nil, List.length_nil, u32]
    omega
  | cons e es ih =>
    have hm1 := tick_nominal s e (hc e (List.mem_cons_self e es)) hm
    have hn1 : (tick s e).n_31us = u32 (s.n_31us + 98304) := by
      rw [tick_n_31us, hm1]
    obtain ⟨h1, h2⟩ := ih (tick s e) (fun x hx => hc x (List.mem_cons_of_mem e hx)) hm1
      (by rw [hn1]; exact u32_lt _)
    rw [runTicks_cons]
    refine ⟨h1, ?_⟩
    rw [h2, hn1]
    simp only [List.length_cons, u32]
    omega

theorem alternating_ccmp (k : Nat) : ∀ e ∈ alternating k, e.ccmp = 32767 := by
  intro e he
  simp only [alternating, List.mem_map] at he
  obtain ⟨i, -, rfl⟩ := he
  rfl

theorem alternating_length (k : Nat) : (alternating k).length = k := by
  simp [alternating]

/-- C2, as stated, fails: from the initial state, after 43690 ticks of the
nominal 98304 cycles (flag alternating, so no counter overflows) the
accumulator holds 4294901760, and the next invocation leaves 32768. -/
theorem accumulator_decreases :
    (runTicks (initState false) (alternating 43690)).n_31us = 4294901760 ∧
    (tick (runTicks (initState false) (alternating 43690)) ⟨0, 32767⟩).n_31us = 32768 ∧
    (tick (runTicks (initState false) (alternating 43690)) ⟨0, 32767⟩).n_31us <
      (runTicks (initState false) (alternating 43690)).n_31us := by
  obtain ⟨h1, h2⟩ := runTicks_nominal (alternating 43690) (initState false)
    (alternating_ccmp 43690) (by decide) (by decide)
  have hn : (runTicks (initState false) (alternating 43690)).n_31us = 4294901760 := by
    rw [h2, alternating_length]; decide
  have ht : (tick (runTicks (initState false) (alternating 43690)) ⟨0, 32767⟩).n_31us
      = 32768 := by
    rw [tick_n_31us, tick_nominal _ _ rfl h1, hn]; decide
  exact ⟨hn, ht, by rw [ht, hn]; decide⟩

/-- C2 (amended): in every state reached from the initial state by handler
invocations with arbitrary latch and flag values, the next invocation leaves
`n_31us` greater than or equal to its value before exactly when the 32 bit
sum `n_31us + meas_value` does not wrap, and then strictly greater. -/
theorem accumulator_monotone_iff (led : Bool) (es : List Tick) (e : Tick) :
    ((runTicks (initState led) es).n_31us ≤ (tick (runTicks (initState led) es) e).n_31us ↔
      (runTicks (initState led) es).n_31us +
        (tick (runTicks (initState led) es) e).meas_value < 4294967296) ∧
    ((runTicks (initState led) es).n_31us +
        (tick (runTicks (initState led) es) e).meas_value < 4294967296 →
      (runTicks (initState led) es).n_31us < (tick (runTicks (initState led) es) e).n_31us) := by
  have hb := bounded_runTicks es _ (bounded_init led)
  obtain ⟨-, h2, h3⟩ := bounded_tick _ e hb
  obtain ⟨h1, -, -⟩ := hb
  rw [tick_n_31us]
  generalize (runTicks (initState led) es).n_31us = n at *
  generalize (tick (runTicks (initState led) es) e).meas_value = m at *
  unfold u32
  constructor
  · constructor <;> intro h <;> omega
  · intro h; omega

/-- C2 (amended) on the first tick after reset: 0 becomes 98304. -/
theorem accumulator_monotone_iff_witness :
    (runTicks (initState false) []).n_31us <
      (tick (runTicks (initState false) []) ⟨1, 0⟩).n_31us :=
  (accumulator_monotone_iff false [] ⟨1, 0⟩).2 (by decide)

/-! ## One measurement per calibration phase -/

theorem tick_cnt_in_set (s : State) (e : Tick) (h : e.flag ≠ 0) :
    (tick s e).cnt_in_meas_mode = wrapInt (s.cnt_in_meas_mode + 1) := by
  unfold tick
  rw [isr_cnt_in_meas_mode]
  exact (updateCounters_set _ h).1

theorem measLog_length (es : List Tick) (s : State) : (measLog s es).length = es.length := by
  induction es generalizing s with
  | nil => rfl
  | cons e es ih => simp [measLog, ih]

theorem measLog_phase (es : List Tick) (s : State) (c : Nat)
    (hc : s.cnt_in_meas_mode = (c : Int)) (hf : ∀ e ∈ es, e.flag ≠ 0)
    (hk : c + es.length < 32768) :
    measLog s es = (List.range es.length).map (fun i => decide (c + i = 1)) := by
  induction es generalizing s c with
  | nil => rfl
  | cons e es ih =>
    have hfe : e.flag ≠ 0 := hf e (List.mem_cons_self e es)
    simp only [List.length_cons] at hk
    have hw : wrapInt ((c : Int) + 1) = ((c + 1 : Nat) : Int) := by
      rw [wrapInt_of_range _ (by omega) (by omega)]; rfl
    have hc1 : (tick s e).cnt_in_meas_mode = ((c + 1 : Nat) : Int) := by
      rw [tick_cnt_in_set s e hfe, hc, hw]
    have ht : takesMeasurement { s with now_in_meas_mode := e.flag } = decide (c + 0 = 1) := by
      rw [Bool.eq_iff_iff, takesMeasurement_iff]
      simp only [hc, hw, decide_eq_true_eq]
      constructor
      · rintro ⟨-, h⟩; omega
      · intro h; exact ⟨hfe, by omega⟩
    rw [measLog, ih (tick s e) (c + 1) hc1 (fun x hx => hf x (List.mem_cons_of_mem e hx))
      (by omega), ht, List.length_cons, List.range_succ_eq_map, List.map_cons, List.map_map]
    refine congrArg (List.cons (decide (c + 0 = 1))) ?_
    apply List.map_congr_left
    intro i _
    have hi : (c + 1 + i = 1) = (c + (i + 1) = 1) := propext (by omega)
    simp only [Function.comp, Nat.succ_eq_add_one, hi]

theorem count_second (k : Nat) :
    ((List.range k).map (fun i => decide (i = 1))).count true = if 2 ≤ k then 1 else 0 := by
  induction k with
  | zero => rfl
  | succ n ih =>
    rw [List.range_succ, List.map_append, List.count_append, ih]
    by_cases h1 : n = 1
    · subst h1; rfl
    · have : decide (n = 1) = false := by simpa using h1
      simp only [List.map_cons, List.map_nil, this]
      by_cases h2 : 2 ≤ n
      · simp [h2, show 2 ≤ n + 1 by omega]
      · have h3 : ¬ 2 ≤ n + 1 := by omega
        simp [h2, h3]

theorem tick_meas_value_set (s : State) (e : Tick) (c : Nat)
    (hc : s.cnt_in_meas_mode = (c : Int)) (hf : e.flag ≠ 0) (hk : c < 32767) :
    (tick s e).meas_value = if c = 1 then measuredValue e.ccmp else s.meas_value := by
  have hw : wrapInt ((c : Int) + 1) = (c : Int) + 1 :=
    wrapInt_of_range _ (by omega) (by omega)
  have ht : takesMeasurement { s with now_in_meas_mode := e.flag } = true ↔ c = 1 := by
    rw [takesMeasurement_iff]
    simp only [hc, hw]
    constructor
    · rintro ⟨-, h⟩; omega
    · intro h; exact ⟨hf, by omega⟩
  unfold tick
  rw [isr_meas_value]
  by_cases h1 : c = 1
  · rw [if_pos (ht.2 h1), if_pos h1]
  · rw [if_neg (fun h => h1 (ht.1 h)), if_neg h1]

theorem runTicks_phase_meas_value (es : List Tick) (s : State) (c : Nat)
    (hc : s.cnt_in_meas_mode = (c : Int)) (hf : ∀ e ∈ es, e.flag ≠ 0)
    (hk : c + es.length < 32768) (i : Nat) (hi : i < es.length) :
    (runTicks s (es.take (i + 1))).meas_value =
      if c + i = 1 then measuredValue es[i].ccmp
      else (runTicks s (es.take i)).meas_value := by
  induction es generalizing s c i with
  | nil => simp at hi
  | cons e es ih =>
    have hfe : e.flag ≠ 0 := hf e (List.mem_cons_self e es)
    simp only [List.length_cons] at hk hi
    cases i with
    | zero =>
      simp only [Nat.zero_add, List.take_succ_cons, List.take_zero, runTicks_cons,
        runTicks_nil, List.getElem_cons_zero, Nat.add_zero]
      exact tick_meas_value_set s e c hc hfe (by omega)
    | succ n =>
      have hc1 : (tick s e).cnt_in_meas_mode = ((c + 1 : Nat) : Int) := by
        rw [tick_cnt_in_set s e hfe, hc, wrapInt_of_range _ (by omega) (by omega)]
        rfl
      have h := ih (tick s e) (c + 1) hc1 (fun x hx => hf x (List.mem_cons_of_mem e hx))
        (by omega) n (by omega)
      simp only [List.take_succ_cons, runTicks_cons, List.getElem_cons_succ]
      rw [h]
      have hcn : (c + 1 + n = 1) = (c + (n + 1) = 1) := propext (by omega)
      simp only [hcn]

/-- C4: in a run of `k < 32768` consecutive invocations that all see the
request flag set, entered with `cnt_in_meas_mode = 0`, the measurement branch
is taken on the second invocation and on no other (once when `k >= 2`, never
when `k < 2`), and the handler's output shows it: the second invocation
leaves in `meas_value` the value measured from its latch, every other
invocation of the run leaves `meas_value` as it found it. -/
theorem single_calibration (s : State) (es : List Tick) (h0 : s.cnt_in_meas_mode = 0)
    (hf : ∀ e ∈ es, e.flag ≠ 0) (hk : es.length < 32768) :
    measLog s es = (List.range es.length).map (fun i => decide (i = 1)) ∧
    (measLog s es).count true = (if 2 ≤ es.length then 1 else 0) ∧
    (∀ (i : Nat) (hi : i < es.length),
      (runTicks s (es.take (i + 1))).meas_value =
        if i = 1 then measuredValue es[i].ccmp
        else (runTicks s (es.take i)).meas_value) := by
  have h := measLog_phase es s 0 (by simpa using h0) hf (by omega)
  simp only [Nat.zero_add] at h
  refine ⟨h, by rw [h, count_second], ?_⟩
  intro i hi
  have hm := runTicks_phase_meas_value es s 0 (by simpa using h0) hf (by omega) i hi
  simpa only [Nat.zero_add] using hm

/-- C4 on a phase of four ticks from the initial state: only the second
tick measures, and `meas_value` goes 98304, 65557 (latch 20), 65557, 65557. -/
theorem single_calibration_witness :
    measLog (initState false) [⟨1, 10⟩, ⟨1, 20⟩, ⟨1, 30⟩, ⟨1, 40⟩] =
      [false, true, false, false] ∧
    (measLog (initState false) [⟨1, 10⟩, ⟨1, 20⟩, ⟨1, 30⟩, ⟨1, 40⟩]).count true = 1 ∧
    (runTicks (initState false) [⟨1, 10⟩]).meas_value = 98304 ∧
    (runTicks (initState false) [⟨1, 10⟩, ⟨1, 20⟩]).meas_value = 65557 ∧
    (runTicks (initState false) [⟨1, 10⟩, ⟨1, 20⟩, ⟨1, 30⟩]).meas_value =
      (runTicks (initState false) [⟨1, 10⟩, ⟨1, 20⟩]).meas_value ∧
    (runTicks (initState false) [⟨1, 10⟩, ⟨1, 20⟩, ⟨1, 30⟩, ⟨1, 40⟩]).meas_value =
      (runTicks (initState false) [⟨1, 10⟩, ⟨1, 20⟩, ⟨1, 30⟩]).meas_value := by
  have h := single_calibration (initState false) [⟨1, 10⟩, ⟨1, 20⟩, ⟨1, 30⟩, ⟨1, 40⟩] rfl
    (by simp) (by simp)
  refine ⟨h.1, h.2.1, ?_, ?_, ?_, ?_⟩
  · have h0 := h.2.2 0 (by simp)
    simpa [runTicks_nil, initState, u32, F_XOSC32K, DESIRED_RTC_TICK_S] using h0
  · have h1 := h.2.2 1 (by simp)
    simpa [measuredValue, u32, u16] using h1
  · have h2 := h.2.2 2 (by simp)
    simpa using h2
  · have h3 := h.2.2 3 (by simp)
    simpa using h3

/-! ## The handler and the main loop together -/

theorem mainRun_reset (led : Bool) (clk : ClkSel) :
    mainRun 6 (sysReset led clk) =
      { st := { initState led with now_in_meas_mode := 1 }, pc := Pc.l94,
        clk := ClkSel.XOSC32K } := by
  rfl

theorem mainRun_l94_wait (y : Sys) (hpc : y.pc = Pc.l94) (h : y.st.cnt_in_meas_mode < 2) :
    mainRun 6 y = y := by
  obtain ⟨st, pc, clk⟩ := y
  simp only at hpc h
  subst hpc
  simp [mainRun, mainStep, N_TICKS_FOR_MEAS, h]

theorem mainRun_l94_go (y : Sys) (hpc : y.pc = Pc.l94) (h : ¬ y.st.cnt_in_meas_mode < 2)
    (h2 : y.st.cnt_not_in_meas_mode < 300) :
    mainRun 6 y =
      { st := { y.st with now_in_meas_mode := 0 }, pc := Pc.l99, clk := ClkSel.OSCULP32K } := by
  obtain ⟨st, pc, clk⟩ := y
  simp only at hpc h h2
  subst hpc
  simp [mainRun, mainStep, N_TICKS_FOR_MEAS, N_TICKS_BETWEEN_MEAS, h, h2]

theorem mainRun_l99_wait (y : Sys) (hpc : y.pc = Pc.l99)
    (h : y.st.cnt_not_in_meas_mode < 300) : mainRun 6 y = y := by
  obtain ⟨st, pc, clk⟩ := y
  simp only at hpc h
  subst hpc
  simp [mainRun, mainStep, N_TICKS_BETWEEN_MEAS, h]

theorem mainRun_l99_go (y : Sys) (hpc : y.pc = Pc.l99)
    (h : ¬ y.st.cnt_not_in_meas_mode < 300) (h2 : y.st.cnt_in_meas_mode < 2) :
    mainRun 6 y =
      { st := { y.st with now_in_meas_mode := 1 }, pc := Pc.l94, clk := ClkSel.XOSC32K } := by
  obtain ⟨st, pc, clk⟩ := y
  simp only at hpc h h2
  subst hpc
  simp [mainRun, mainStep, N_TICKS_FOR_MEAS, N_TICKS_BETWEEN_MEAS, h, h2]

theorem cadence_reset (led : Bool) (clk : ClkSel) : Cadence 0 (mainRun 6 (sysReset led clk)) := by
  rw [mainRun_reset]
  simp [Cadence, initState]

theorem sysTick_pc (y : Sys) (c : Nat) : (sysTick y c).pc = y.pc := rfl

theorem sysTick_st (y : Sys) (c : Nat) : (sysTick y c).st = ISR_RTC_CNT_vect y.st c := rfl

theorem cadence_step (m : Nat) (y : Sys) (c : Nat) (h : Cadence m y) :
    Cadence (m + 1) (mainRun 6 (sysTick y c)) := by
  unfold Cadence at h
  by_cases hr : m % 302 < 2
  · rw [if_pos hr] at h
    obtain ⟨hpc, hf, hci, hcn⟩ := h
    have hf0 : y.st.now_in_meas_mode ≠ 0 := by rw [hf]; decide
    have hci1 : (sysTick y c).st.cnt_in_meas_mode = ((m % 302 + 1 : Nat) : Int) := by
      rw [sysTick_st, isr_cnt_in_meas_mode, (updateCounters_set _ hf0).1, hci,
        wrapInt_of_range _ (by omega) (by omega)]
      rfl
    have hcn1 : (sysTick y c).st.cnt_not_in_meas_mode = 0 := by
      rw [sysTick_st, isr_cnt_not_in_meas_mode, (updateCounters_set _ hf0).2]
    have hf1 : (sysTick y c).st.now_in_meas_mode = 1 := by
      rw [sysTick_st, isr_now_in_meas_mode, hf]
    by_cases h0 : m % 302 = 0
    · rw [mainRun_l94_wait _ (by rw [sysTick_pc, hpc]) (by rw [hci1]; omega)]
      have h1 : (m + 1) % 302 = 1 := by omega
      unfold Cadence
      rw [if_pos (by omega)]
      refine ⟨by rw [sysTick_pc, hpc], hf1, ?_, ?_⟩
      · rw [hci1, h1, h0]
      · rw [hcn1, if_neg (by omega)]
    · rw [mainRun_l94_go _ (by rw [sysTick_pc, hpc]) (by rw [hci1]; omega)
        (by rw [hcn1]; decide)]
      have h1 : (m + 1) % 302 = 2 := by omega
      have h2 : m % 302 = 1 := by omega
      unfold Cadence
      rw [if_neg (by omega)]
      refine ⟨rfl, rfl, ?_, ?_⟩
      · show (sysTick y c).st.cnt_in_meas_mode = _
        rw [hci1, if_pos h1, h2]; rfl
      · show (sysTick y c).st.cnt_not_in_meas_mode = _
        rw [hcn1, h1]; rfl
  · rw [if_neg hr] at h
    obtain ⟨hpc, hf, hci, hcn⟩ := h
    have hlt : m % 302 < 302 := Nat.mod_lt _ (by decide)
    have hci1 : (sysTick y c).st.cnt_in_meas_mode = 0 := by
      rw [sysTick_st, isr_cnt_in_meas_mode, (updateCounters_clear _ hf).1]
    have hcn1 : (sysTick y c).st.cnt_not_in_meas_mode = ((m % 302 - 1 : Nat) : Int) := by
      rw [sysTick_st, isr_cnt_not_in_meas_mode, (updateCounters_clear _ hf).2, hcn,
        wrapInt_of_range _ (by omega) (by omega)]
      omega
    have hf1 : (sysTick y c).st.now_in_meas_mode = 0 := by
      rw [sysTick_st, isr_now_in_meas_mode, hf]
    by_cases h301 : m % 302 = 301
    · rw [mainRun_l99_go _ (by rw [sysTick_pc, hpc]) (by rw [hcn1]; omega)
        (by rw [hci1]; decide)]
      have h1 : (m + 1) % 302 = 0 := by omega
      unfold Cadence
      rw [if_pos (by omega)]
      refine ⟨rfl, rfl, ?_, ?_⟩
      · show (sysTick y c).st.cnt_in_meas_mode = _
        rw [hci1, h1]; rfl
      · show (sysTick y c).st.cnt_not_in_meas_mode = _
        rw [hcn1, if_pos ⟨h1, by omega⟩, h301]; rfl
    · rw [mainRun_l99_wait _ (by rw [sysTick_pc, hpc]) (by rw [hcn1]; omega)]
      have h1 : (m + 1) % 302 = m % 302 + 1 := by omega
      unfold Cadence
      rw [if_neg (by omega)]
      refine ⟨by rw [sysTick_pc, hpc], hf1, ?_, ?_⟩
      · rw [hci1, if_neg (by omega)]
      · rw [hcn1, h1]; congr 1

theorem cadence_sysAfter (led : Bool) (clk : ClkSel) (ccmp : Nat → Nat) (m : Nat) :
    Cadence m (sysAfter led clk ccmp m) := by
  induction m with
  | zero => exact cadence_reset led clk
  | succ n ih => exact cadence_step n _ (ccmp n) ih

theorem cadence_blocked (m : Nat) (y : Sys) (h : Cadence m y) : mainStep y = none := by
  unfold Cadence at h
  have hlt : m % 302 < 302 := Nat.mod_lt _ (by decide)
  by_cases hr : m % 302 < 2
  · rw [if_pos hr] at h
    obtain ⟨hpc, -, hci, -⟩ := h
    have : y.st.cnt_in_meas_mode < 2 := by rw [hci]; omega
    simp [mainStep, hpc, N_TICKS_FOR_MEAS, this]
  · rw [if_neg hr] at h
    obtain ⟨hpc, -, -, hcn⟩ := h
    have : y.st.cnt_not_in_meas_mode < 300 := by rw [hcn]; omega
    simp [mainStep, hpc, N_TICKS_BETWEEN_MEAS, this]

theorem isr_bled1 (s : State) (c : Nat) :
    (ISR_RTC_CNT_vect s c).bled1 = decide ((ISR_RTC_CNT_vect s c).mins % 2 = 0) := by
  simp only [ISR_RTC_CNT_vect, showParity, outtgl, accumulate, measure, updateCounters,
    Nat.and_one_is_mod]
  split_ifs <;> simp_all

theorem isr_bled1_irrelevant (s : State) (c : Nat) (b : Bool) :
    ISR_RTC_CNT_vect { s with bled1 := b } c = ISR_RTC_CNT_vect s c := by
  simp only [ISR_RTC_CNT_vect, showParity, outtgl, accumulate, measure, updateCounters]
  split_ifs <;> rfl

/-- C13: after the handler returns, `PA4` is low iff the freshly computed
`mins` is odd and high iff it is even; the two heartbeat toggles cancel, and
the level before the invocation has no influence on the state afterwards. -/
theorem minute_parity_indicator (s : State) (L : Nat) (b : Bool) :
    ((ISR_RTC_CNT_vect s L).bled1 = false ↔ (ISR_RTC_CNT_vect s L).mins % 2 = 1) ∧
    ((ISR_RTC_CNT_vect s L).bled1 = true ↔ (ISR_RTC_CNT_vect s L).mins % 2 = 0) ∧
    (outtgl (accumulate (measure (updateCounters (outtgl s)) L))).bled1 = s.bled1 ∧
    ISR_RTC_CNT_vect { s with bled1 := b } L = ISR_RTC_CNT_vect s L := by
  refine ⟨?_, ?_, ?_, isr_bled1_irrelevant s L b⟩
  · rw [isr_bled1]
    have := Nat.mod_two_eq_zero_or_one (ISR_RTC_CNT_vect s L).mins
    simp only [decide_eq_false_iff_not]
    omega
  · rw [isr_bled1]
    simp
  · simp only [outtgl, accumulate, measure, updateCounters]
    split_ifs <;> simp

/-! ## Range of the accumulator -/

/-- C14: the accumulator update is addition modulo `2^32`, so after every
handler invocation `n_31us < 2^32`, `secs <= 131071` and `mins <= 2184`. -/
theorem accumulator_range (s : State) (L : Nat) :
    (ISR_RTC_CNT_vect s L).n_31us =
      (s.n_31us + (ISR_RTC_CNT_vect s L).meas_value) % 2 ^ 32 ∧
    (ISR_RTC_CNT_vect s L).n_31us < 2 ^ 32 ∧
    (ISR_RTC_CNT_vect s L).secs ≤ 131071 ∧
    (ISR_RTC_CNT_vect s L).secs < 2 ^ 17 ∧
    (ISR_RTC_CNT_vect s L).mins ≤ 2184 := by
  have hn : (ISR_RTC_CNT_vect s L).n_31us < 4294967296 := by
    rw [isr_n_31us]; exact u32_lt _
  have hs : (ISR_RTC_CNT_vect s L).secs = (ISR_RTC_CNT_vect s L).n_31us / 32768 := by
    rw [isr_secs, Nat.shiftRight_eq_div_pow]
  have hm := isr_mins s L
  refine ⟨?_, ?_, ?_, ?_, ?_⟩
  · rw [isr_n_31us]; rfl
  · norm_num; exact hn
  · omega
  · norm_num; omega
  · omega

/-! ## The clock switches -/

theorem soscChanging_eq_testBit (bp status : Nat) :
    soscChanging bp status = status.testBit bp := by
  unfold soscChanging
  rw [Nat.one_shiftLeft, Nat.and_two_pow]
  cases h : status.testBit bp
  · simp
  · simp [Nat.pos_iff_ne_zero.mp (Nat.two_pow_pos bp)]

theorem waitSosc_returns (bp : Nat) (status : Nat → Nat) (k : Nat) :
    ∀ (m : Mcu) (fuel : Nat),
      (∀ j, j < k → soscChanging bp (status (m.nreads + j)) = true) →
      soscChanging bp (status (m.nreads + k)) = false → k < fuel →
      waitSosc bp status fuel m = some { m with nreads := m.nreads + k + 1 } := by
  induction k with
  | zero =>
    intro m fuel _ hfree hk
    obtain ⟨f, rfl⟩ : ∃ f, fuel = f + 1 := ⟨fuel - 1, by omega⟩
    have h0 : soscChanging bp (status m.nreads) = false := by simpa using hfree
    simp [waitSosc, h0]
  | succ k ih =>
    intro m fuel hbusy hfree hk
    obtain ⟨f, rfl⟩ : ∃ f, fuel = f + 1 := ⟨fuel - 1, by omega⟩
    have h0 : soscChanging bp (status m.nreads) = true := by simpa using hbusy 0 (by omega)
    have hrec := ih { m with nreads := m.nreads + 1 } f
      (fun j hj => by
        have := hbusy (j + 1) (by omega)
        rwa [show m.nreads + (j + 1) = m.nreads + 1 + j by omega] at this)
      (by rwa [show m.nreads + (k + 1) = m.nreads + 1 + k by omega] at hfree)
      (by omega)
    rw [waitSosc, if_pos h0, hrec]
    simp only [Option.some.injEq, Mcu.mk.injEq, true_and]
    omega

theorem waitSosc_spins (bp : Nat) (status : Nat → Nat) (fuel : Nat) :
    ∀ (m : Mcu), (∀ j, j < fuel → soscChanging bp (status (m.nreads + j)) = true) →
      waitSosc bp status fuel m = none := by
  induction fuel with
  | zero => intro m _; rfl
  | succ f ih =>
    intro m hbusy
    have h0 : soscChanging bp (status m.nreads) = true := by simpa using hbusy 0 (by omega)
    rw [waitSosc, if_pos h0]
    apply ih
    intro j hj
    have := hbusy (j + 1) (by omega)
    rwa [show m.nreads + (j + 1) = m.nreads + 1 + j by omega] at this

/-- C11: each clock switch writes its selector to `MCLKCTRLA` once and returns
right after the first read of `MCLKSTATUS` whose SOSC bit is 0, not before,
leaving every timekeeping variable as it was; when the bit reads 1 for ever,
no number of reads makes either function return. -/
theorem clock_switch (bp : Nat) (status : Nat → Nat) (m : Mcu) (fuel : Nat) :
    (∀ k, (∀ j, j < k → (status (m.nreads + j)).testBit bp = true) →
        (status (m.nreads + k)).testBit bp = false →
      (k < fuel →
        switch_main_clk_to_xosc32k bp status fuel m =
          some { st := m.st, mclkctrla := m.mclkctrla ++ [ClkSel.XOSC32K],
                 nreads := m.nreads + k + 1 } ∧
        switch_main_clk_to_ulp32k bp status fuel m =
          some { st := m.st, mclkctrla := m.mclkctrla ++ [ClkSel.OSCULP32K],
                 nreads := m.nreads + k + 1 }) ∧
      (fuel ≤ k →
        switch_main_clk_to_xosc32k bp status fuel m = none ∧
        switch_main_clk_to_ulp32k bp status fuel m = none)) ∧
    ((∀ j, (status (m.nreads + j)).testBit bp = true) →
      switch_main_clk_to_xosc32k bp status fuel m = none ∧
      switch_main_clk_to_ulp32k bp status fuel m = none) := by
  constructor
  · intro k hbusy hfree
    have hb : ∀ sel j, j < k →
        soscChanging bp (status ((ccp_write_io m sel).nreads + j)) = true := by
      intro sel j hj
      rw [soscChanging_eq_testBit]; exact hbusy j hj
    have hf : ∀ sel, soscChanging bp (status ((ccp_write_io m sel).nreads + k)) = false := by
      intro sel
      rw [soscChanging_eq_testBit]; exact hfree
    constructor
    · intro hk
      exact ⟨waitSosc_returns bp status k _ fuel (hb _) (hf _) hk,
        waitSosc_returns bp status k _ fuel (hb _) (hf _) hk⟩
    · intro hk
      exact ⟨waitSosc_spins bp status fuel _ (fun j hj => hb _ j (by omega)),
        waitSosc_spins bp status fuel _ (fun j hj => hb _ j (by omega))⟩
  · intro hbusy
    have hb : ∀ sel j, soscChanging bp (status ((ccp_write_io m sel).nreads + j)) = true := by
      intro sel j
      rw [soscChanging_eq_testBit]; exact hbusy j
    exact ⟨waitSosc_spins bp status fuel _ (fun j _ => hb _ j),
      waitSosc_spins bp status fuel _ (fun j _ => hb _ j)⟩

/-- C11 on a status stream whose SOSC bit is set for two reads: the switch to
the crystal returns after the third read, with one write and the variables
untouched, and has not returned after two reads. -/
theorem clock_switch_witness :
    switch_main_clk_to_xosc32k 0 twoBusyReads 5 mcuReset =
      some { st := initState false, mclkctrla := [ClkSel.XOSC32K], nreads := 3 } ∧
    switch_main_clk_to_xosc32k 0 twoBusyReads 2 mcuReset = none ∧
    switch_main_clk_to_ulp32k 0 (fun _ => 1) 1000 mcuReset = none :=
  ⟨(((clock_switch 0 twoBusyReads mcuReset 5).1 2
      (by intro j hj; interval_cases j <;> decide) (by decide)).1 (by decide)).1,
   (((clock_switch 0 twoBusyReads mcuReset 2).1 2
      (by intro j hj; interval_cases j <;> decide) (by decide)).2 (by decide)).1,
   ((clock_switch 0 (fun _ => 1) mcuReset 1000).2 (by intro j; decide)).2⟩

/-! ## Counter bounds under the protocol of the main loop -/

theorem counterInv_reset (led : Bool) (clk : ClkSel) : CounterInv (sysReset led clk) := by
  simp [CounterInv, sysReset, initState]

theorem counterInv_step (y y1 : Sys) (h : CounterInv y) (hs : mainStep y = some y1) :
    CounterInv y1 := by
  obtain ⟨st, pc, clk⟩ := y
  cases pc <;> simp only [mainStep, N_TICKS_FOR_MEAS, N_TICKS_BETWEEN_MEAS] at hs
  · cases hs; exact h
  · cases hs
    simp only [CounterInv] at h ⊢
    exact ⟨trivial, Or.inl h⟩
  · split_ifs at hs with hc
    cases hs
    simp only [CounterInv] at h ⊢
    rcases h.2 with h1 | h1 <;> constructor <;> omega
  · cases hs
    simp only [CounterInv] at h ⊢
    exact ⟨trivial, h⟩
  · cases hs
    simp only [CounterInv] at h ⊢
    exact ⟨h.1, Or.inl h.2⟩
  · split_ifs at hs with hc
    cases hs
    simp only [CounterInv] at h ⊢
    rcases h.2 with h1 | h1 <;> refine ⟨?_, ?_, ?_⟩ <;> omega

theorem counterInv_tick (y : Sys) (c : Nat) (h : CounterInv y) (hs : mainStep y = none) :
    CounterInv (sysTick y c) := by
  obtain ⟨st, pc, clk⟩ := y
  cases pc
  · simp [mainStep] at hs
  · simp [mainStep] at hs
  · simp only [mainStep, N_TICKS_FOR_MEAS] at hs
    split_ifs at hs with hc
    simp only [CounterInv] at h
    obtain ⟨hf, hcnt⟩ := h
    have hf0 : st.now_in_meas_mode ≠ 0 := by rw [hf]; decide
    have h1 : (ISR_RTC_CNT_vect st c).cnt_in_meas_mode = st.cnt_in_meas_mode + 1 := by
      rw [isr_cnt_in_meas_mode, (updateCounters_set _ hf0).1,
        wrapInt_of_range _ (by omega) (by omega)]
    have h2 : (ISR_RTC_CNT_vect st c).cnt_not_in_meas_mode = 0 := by
      rw [isr_cnt_not_in_meas_mode, (updateCounters_set _ hf0).2]
    have h3 : (ISR_RTC_CNT_vect st c).now_in_meas_mode = 1 := by
      rw [isr_now_in_meas_mode, hf]
    simp only [CounterInv, sysTick, h1, h2, h3]
    refine ⟨trivial, Or.inr ⟨?_, trivial⟩⟩
    omega
  · simp [mainStep] at hs
  · simp [mainStep] at hs
  · simp only [mainStep, N_TICKS_BETWEEN_MEAS] at hs
    split_ifs at hs with hc
    simp only [CounterInv] at h
    obtain ⟨hf, hcnt⟩ := h
    have h1 : (ISR_RTC_CNT_vect st c).cnt_in_meas_mode = 0 := by
      rw [isr_cnt_in_meas_mode, (updateCounters_clear _ hf).1]
    have h2 : (ISR_RTC_CNT_vect st c).cnt_not_in_meas_mode = st.cnt_not_in_meas_mode + 1 := by
      rw [isr_cnt_not_in_meas_mode, (updateCounters_clear _ hf).2,
        wrapInt_of_range _ (by omega) (by omega)]
    have h3 : (ISR_RTC_CNT_vect st c).now_in_meas_mode = 0 := by
      rw [isr_now_in_meas_mode, hf]
    simp only [CounterInv, sysTick, h1, h2, h3]
    refine ⟨trivial, Or.inr ⟨trivial, ?_, ?_⟩⟩ <;> omega

theorem counterInv_reach (led : Bool) (clk : ClkSel) (y : Sys) (h : Reach led clk y) :
    CounterInv y := by
  induction h with
  | reset => exact counterInv_reset led clk
  | step y y1 _ hs ih => exact counterInv_step y y1 ih hs
  | tick y c _ hs ih => exact counterInv_tick y c ih hs

theorem counterInv_bounds (y : Sys) (h : CounterInv y) :
    (0 ≤ y.st.cnt_in_meas_mode ∧ y.st.cnt_in_meas_mode ≤ 2) ∧
    (0 ≤ y.st.cnt_not_in_meas_mode ∧ y.st.cnt_not_in_meas_mode ≤ 300) ∧
    (y.st.cnt_in_meas_mode = 0 ∨ y.st.cnt_not_in_meas_mode = 0) := by
  obtain ⟨st, pc, clk⟩ := y
  cases pc <;> simp only [CounterInv] at h ⊢
  · omega
  · omega
  · rcases h.2 with h1 | h1 <;> omega
  · omega
  · omega
  · rcases h.2 with h1 | h1 <;> omega

theorem reach_firstTickSys : Reach false ClkSel.OSCULP32K firstTickSys := by
  refine Reach.tick _ 7 ?_ rfl
  rw [mainRun_reset]
  refine Reach.step _ _ (Reach.step _ _ Reach.reset rfl) rfl

theorem reach_mainRun (led : Bool) (clk : ClkSel) (fuel : Nat) :
    ∀ y, Reach led clk y → Reach led clk (mainRun fuel y) := by
  induction fuel with
  | zero => intro y h; exact h
  | succ f ih =>
    intro y h
    unfold mainRun
    cases hs : mainStep y with
    | none => exact h
    | some y1 => exact ih y1 (Reach.step y y1 h hs)

theorem reach_sysAfter (led : Bool) (clk : ClkSel) (ccmp : Nat → Nat) (m : Nat) :
    Reach led clk (sysAfter led clk ccmp m) := by
  induction m with
  | zero => exact reach_mainRun led clk 6 _ Reach.reset
  | succ n ih =>
    exact reach_mainRun led clk 6 _
      (Reach.tick _ (ccmp n) ih (cadence_blocked n _ (cadence_sysAfter led clk ccmp n)))

/-- C15: in every state the handler and the main loop can reach together,
`0 <= cnt_in_meas_mode <= 2`, `0 <= cnt_not_in_meas_mode <= 300` and one of
the two counters is 0; both stay below `INT_MAX`, so the increment the next
handler invocation performs is exact, not wrapped. -/
theorem counter_bounds (led : Bool) (clk : ClkSel) (y : Sys) (h : Reach led clk y)
    (L : Nat) :
    (0 ≤ y.st.cnt_in_meas_mode ∧ y.st.cnt_in_meas_mode ≤ 2) ∧
    (0 ≤ y.st.cnt_not_in_meas_mode ∧ y.st.cnt_not_in_meas_mode ≤ 300) ∧
    (y.st.cnt_in_meas_mode = 0 ∨ y.st.cnt_not_in_meas_mode = 0) ∧
    (y.st.cnt_in_meas_mode < INT_MAX ∧ y.st.cnt_not_in_meas_mode < INT_MAX) ∧
    (y.st.now_in_meas_mode = 0 →
      (ISR_RTC_CNT_vect y.st L).cnt_not_in_meas_mode = y.st.cnt_not_in_meas_mode + 1) ∧
    (y.st.now_in_meas_mode ≠ 0 →
      (ISR_RTC_CNT_vect y.st L).cnt_in_meas_mode = y.st.cnt_in_meas_mode + 1) := by
  obtain ⟨h1, h2, h3⟩ := counterInv_bounds y (counterInv_reach led clk y h)
  refine ⟨h1, h2, h3, ⟨?_, ?_⟩, ?_, ?_⟩
  · simp only [INT_MAX]; omega
  · simp only [INT_MAX]; omega
  · intro hf
    rw [isr_cnt_not_in_meas_mode, (updateCounters_clear _ hf).2,
      wrapInt_of_range _ (by omega) (by omega)]
  · intro hf
    rw [isr_cnt_in_meas_mode, (updateCounters_set _ hf).1,
      wrapInt_of_range _ (by omega) (by omega)]

/-- C15 in the state right after the first tick. -/
theorem counter_bounds_witness :
    (0 ≤ firstTickSys.st.cnt_in_meas_mode ∧ firstTickSys.st.cnt_in_meas_mode ≤ 2) ∧
    (0 ≤ firstTickSys.st.cnt_not_in_meas_mode ∧
      firstTickSys.st.cnt_not_in_meas_mode ≤ 300) ∧
    (firstTickSys.st.cnt_in_meas_mode = 0 ∨ firstTickSys.st.cnt_not_in_meas_mode = 0) ∧
    (firstTickSys.st.cnt_in_meas_mode < INT_MAX ∧
      firstTickSys.st.cnt_not_in_meas_mode < INT_MAX) :=
  ⟨(counter_bounds false ClkSel.OSCULP32K firstTickSys reach_firstTickSys 0).1,
   (counter_bounds false ClkSel.OSCULP32K firstTickSys reach_firstTickSys 0).2.1,
   (counter_bounds false ClkSel.OSCULP32K firstTickSys reach_firstTickSys 0).2.2.1,
   (counter_bounds false ClkSel.OSCULP32K firstTickSys reach_firstTickSys 0).2.2.2.1⟩

end PreciseULPTiming
